import Mathlib

/-!
Verification of the hookup resolution engine of the hera_mc repository.

The definitions below are shallow embeddings of the Python sources:
  - `cm_sysdef.py`   : port topology (`port_def`), `full_connection_path`,
                       `next_connection` and its helper data.
  - `cm_hookup.py`   : the `Hookup` traversal (`__get_next_connection`,
                       `__check_next_port`, `__recursive_go`,
                       `__follow_hookup_stream`, `__add_hookup_timing_and_flags`,
                       `__check_hookup_cache_file`, `is_fully_connected`).
  - `cm_health.py`   : `check_for_overlap`.
  - `cm_revisions.py`: `get_active_revision`.

Python dictionaries become association lists, database rows become structures,
GPS times become natural numbers (they are nonnegative second counts), dates in
the cache check become integers.  A Python function that can raise is embedded
with an `Option`/`Except` result whose `none`/`error` value marks the raise.
-/

namespace HeraMC

/-- A row of the `connections` table: the six-tuple identity plus the
start/stop GPS times (`stop_gpstime` is NULL for open-ended connections). -/
structure Conn where
  upstream_part : String
  up_part_rev : String
  upstream_output_port : String
  downstream_part : String
  down_part_rev : String
  downstream_input_port : String
  start_gpstime : Nat
  stop_gpstime : Option Nat
deriving DecidableEq

/-- Python's `str.lower()` (ASCII), written on the character list so that it
evaluates by kernel reduction. -/
def str_lower (s : String) : String :=
  ⟨s.data.map Char.toLower⟩

/-- Python's `str.upper()` (ASCII). -/
def str_upper (s : String) : String :=
  ⟨s.data.map Char.toUpper⟩

/-- Python's slice `s[:n]`. -/
def str_take (s : String) (n : Nat) : String :=
  ⟨s.data.take n⟩

/-- Python's slice `s[-n:]`: the last `n` characters. -/
def str_take_right (s : String) (n : Nat) : String :=
  ⟨s.data.drop (s.data.length - n)⟩

/-- Python's `s[0]`.  On the empty string Python raises `IndexError`; here the
default character `'A'` is returned — no port or polarization string in any
statement below is empty. -/
def str_front (s : String) : Char :=
  s.data.headD 'A'

/-- Lexicographic comparison of character lists by code point, Python's
string ordering. -/
def chars_lt : List Char → List Char → Bool
  | [], [] => false
  | [], _ :: _ => true
  | _ :: _, [] => false
  | a :: as, b :: bs =>
    if a.toNat < b.toNat then true
    else if b.toNat < a.toNat then false
    else chars_lt as bs

/-- Python's `<` on strings. -/
def str_lt (a b : String) : Bool :=
  chars_lt a.data b.data

/-- Python's `<=` on strings. -/
def str_le (a b : String) : Bool :=
  a == b || str_lt a b

/-- Modelled from the spec: `cm_utils._is_active` is imported by `cm_hookup.py`
and `cm_revisions.py` but `cm_utils.py` is not among the sources.  Spec section 4.2
step 2: a record is active at the as-of date when start <= as-of and
(stop is null or stop >= as-of). -/
def is_active (atDate : Nat) (start : Nat) (stop : Option Nat) : Bool :=
  start ≤ atDate &&
    (match stop with
     | none => true
     | some s => atDate ≤ s)

/-! ## cm_sysdef: port topology -/

/-- One entry of `port_def[hookup_type]`: the per-direction port-name groups
(one group per polarization; `none` stands for Python's `None` placeholder
port) and the position of the part-type in the epoch's path. -/
structure PortSpec where
  up : List (List (Option String))
  down : List (List (Option String))
  position : Nat
deriving DecidableEq

/-- `port_def` of `cm_sysdef.py`, transcribed per hookup type.  An unknown
hookup type gives the empty dictionary (any lookup in it fails, as the
source's `KeyError` would). -/
def port_def : String → List (String × PortSpec)
  | "parts_hera" =>
    [("station", ⟨[[none]], [[some "ground"]], 0⟩),
     ("antenna", ⟨[[some "ground"]], [[some "focus"]], 1⟩),
     ("feed", ⟨[[some "input"]], [[some "terminals"]], 2⟩),
     ("front-end", ⟨[[some "input"]], [[some "e"], [some "n"]], 3⟩),
     ("cable-rfof", ⟨[[some "ea"], [some "na"]], [[some "eb"], [some "nb"]], 4⟩),
     ("post-amp", ⟨[[some "ea"], [some "na"]], [[some "eb"], [some "nb"]], 5⟩),
     ("snap", ⟨[[some "e2", some "e6", some "e10"], [some "n0", some "n4", some "n8"]],
               [[some "rack"]], 6⟩),
     ("node", ⟨[[some "loc1", some "loc2", some "loc3", some "loc4"]], [[none]], 7⟩)]
  | "parts_paper" =>
    [("station", ⟨[[none]], [[some "ground"]], 0⟩),
     ("antenna", ⟨[[some "ground"]], [[some "focus"]], 1⟩),
     ("feed", ⟨[[some "input"]], [[some "terminals"]], 2⟩),
     ("front-end", ⟨[[some "input"]], [[some "e"], [some "n"]], 3⟩),
     ("cable-feed75", ⟨[[some "ea"], [some "na"]], [[some "eb"], [some "nb"]], 4⟩),
     ("cable-post-amp(in)", ⟨[[some "a"]], [[some "b"]], 5⟩),
     ("post-amp", ⟨[[some "ea"], [some "na"]], [[some "eb"], [some "nb"]], 6⟩),
     ("cable-post-amp(out)", ⟨[[some "a"]], [[some "b"]], 7⟩),
     ("cable-receiverator", ⟨[[some "a"]], [[some "b"]], 8⟩),
     ("cable-container", ⟨[[some "a"]], [[some "b"]], 9⟩),
     ("f-engine", ⟨[[some "input"]], [[none]], 10⟩)]
  | "parts_rfi" =>
    [("station", ⟨[[none]], [[some "ground"]], 0⟩),
     ("antenna", ⟨[[some "ground"]], [[some "focus"]], 1⟩),
     ("feed", ⟨[[some "input"]], [[some "terminals"]], 2⟩),
     ("temp-cable", ⟨[[some "ea"], [some "na"]], [[some "eb"], [some "nb"]], 3⟩),
     ("snap", ⟨[[some "e2", some "e6", some "e10"], [some "n0", some "n4", some "n8"]],
               [[some "rack"]], 4⟩),
     ("node", ⟨[[some "loc1", some "loc2", some "loc3", some "loc4"]], [[none]], 5⟩)]
  | "parts_test" => [("vapor", ⟨[[none]], [[none]], 0⟩)]
  | _ => []

/-- `checking_order` of `cm_sysdef.py`. -/
def checking_order : List String := ["parts_hera", "parts_rfi", "parts_paper", "parts_test"]

/-- `all_pols` of `cm_sysdef.py` (set to `['e', 'n']` for the three real
hookup types, the initial `[]` otherwise). -/
def all_pols (ht : String) : List String :=
  if ht = "parts_hera" ∨ ht = "parts_paper" ∨ ht = "parts_rfi" then ["e", "n"] else []

/-- `single_pol_labeled_parts` of `cm_sysdef.py` (nonempty only for
`parts_paper`). -/
def single_pol_labeled_parts (ht : String) : List String :=
  if ht = "parts_paper" then ["cable-post-amp(in)", "cable-post-amp(out)", "cable-receiverator"]
  else []

/-- `port_def[ht][pt]`: `none` is the source's `KeyError`. -/
def part_def_lookup (ht pt : String) : Option PortSpec :=
  List.lookup pt (port_def ht)

/-- Stable insertion into an ascending list, used to model Python's
`sorted(...)` (a new element goes after the existing equal ones). -/
def insert_ord (le : α → α → Bool) (x : α) : List α → List α
  | [] => [x]
  | y :: ys => if le y x then y :: insert_ord le x ys else x :: y :: ys

/-- `sorted(...)` as a fold of stable insertions. -/
def sort_by (le : α → α → Bool) (l : List α) : List α :=
  l.foldl (fun acc x => insert_ord le x acc) []

/-- `full_connection_path[ht]` of `cm_sysdef.py`: the part-type names ordered
by their `position` field (the source builds a position-keyed dictionary and
walks its sorted keys; positions are unique in `port_def`). -/
def full_connection_path (ht : String) : List String :=
  (sort_by (fun a b => a.1 ≤ b.1) ((port_def ht).map (fun kv => (kv.2.position, kv.1)))).map
    (fun kv => kv.2)

/-! ## cm_sysdef: next_connection -/

/-- The mutable `current` argument of `next_connection`: traversal direction
(`"up"`/`"down"`), the port on the current part the walk arrived on, and the
polarization (`"e"`/`"n"`). -/
structure Current where
  direction : String
  port : String
  pol : String
deriving DecidableEq

/-- The slice of a part dossier that `next_connection` reads from `A` and from
the entries of `B`: the part name (hpn) and its part-type. -/
structure PartDossier where
  hpn : String
  part_type : String
deriving DecidableEq

/-- The option records `next_connection` accumulates:
`Namespace(this=this_port, next=next_port, option=opc)`. -/
structure OptEntry where
  this : String
  next : String
  option : Conn
deriving DecidableEq

/-- `_D.arrow[current.direction]`; `none` is the source's `KeyError` for a
direction other than `'up'`/`'down'`. -/
def dir_arrow : String → Option Int
  | "up" => some (-1)
  | "down" => some 1
  | _ => none

/-- `next_part_type_info[_D.this[current.direction]]`: the port groups on the
side of the next part that faces the current part (`'down'` side when walking
up, `'up'` side when walking down). -/
def this_side_groups (direction : String) (ninfo : PortSpec) : List (List (Option String)) :=
  if direction = "up" then ninfo.down else ninfo.up

/-- `pind[pol]`: the polarization index built by `setup` from the lower-cased
`all_pols[ht]` entries; `none` is the source's `KeyError`. -/
def pind_find (pol : String) : List String → Nat → Option Nat
  | [], _ => none
  | p :: ps, i => if p = pol then some i else pind_find pol ps (i + 1)

/-- The polarization index of `pol` for hookup type `ht`. -/
def pind (ht pol : String) : Option Nat :=
  pind_find pol ((all_pols ht).map str_lower) 0

/-- `allowed_next_ports` of `next_connection`: when the facing side of the
next part-type has two port groups the group picked by `pind[current.pol]`
(`none` embeds the `KeyError`/`IndexError` raises).  With one group the source
leaves the variable unassigned; it is then never read, because every
type-matching candidate returns early, so `[]` is a sound stand-in (every
group count in `port_def` is 1 or 2). -/
def allowed_next_ports (ht : String) (ninfo : PortSpec) (direction pol : String) :
    Option (List (Option String)) :=
  let groups := this_side_groups direction ninfo
  if groups.length = 2 then
    match pind ht pol with
    | none => none
    | some i =>
      match groups.get? i with
      | none => none
      | some g => some g
  else some []

/-- The body of the option-collecting loop for one candidate, as a partial
map: skip (`none`) when the far part's type is not the expected next type or
when the far-side port starts with `'@'`; otherwise the
`(this_port, next_port, option)` record, with the part-name-letter prefix
added for single-pol-labeled part-types.  (The source indexes the far
dossier list `B[i]` in parallel with `connection_options`; the zipped pair is
that parallel access.)  The this-side port string (`this_port` in the source)
prefixes `pfxThis` to the port the connection has on the current part. -/
def this_port_of (direction pfxThis : String) (c : Conn) : String :=
  pfxThis ++ (if direction = "up" then c.downstream_input_port else c.upstream_output_port)

/-- The far-side port string of a candidate (`next_port` in the source), with
the part-name polarization letter prefixed when the next part-type is
single-pol-labeled. -/
def next_port_of (ht npt direction : String) (pair : Conn × PartDossier) : String :=
  (if (single_pol_labeled_parts ht).contains npt then str_lower (str_take_right pair.2.hpn 1)
   else "") ++
    (if direction = "up" then pair.1.upstream_output_port
     else pair.1.downstream_input_port)

def mk_opt_entry (ht npt direction pfxThis : String) (pair : Conn × PartDossier) :
    Option OptEntry :=
  if pair.2.part_type ≠ npt then none
  else if str_front (next_port_of ht npt direction pair) = '@' then none
  else some ⟨this_port_of direction pfxThis pair.1, next_port_of ht npt direction pair, pair.1⟩

/-- The option-collecting loop of `next_connection`: candidates whose far
part-type is not `npt` are skipped; a type-matching candidate returns
immediately (`Sum.inl`) when there is a single candidate overall or the facing
side of the next part-type has a single port group; otherwise the
`OptEntry` records are accumulated in evaluation order (`Sum.inr`). -/
def build_options (ht npt direction pfxThis : String) (lenopts gc : Nat) :
    List (Conn × PartDossier) → Conn ⊕ List OptEntry
  | [] => Sum.inr []
  | pair :: rest =>
    if pair.2.part_type ≠ npt then build_options ht npt direction pfxThis lenopts gc rest
    else if lenopts = 1 ∨ gc = 1 then Sum.inl pair.1
    else
      match mk_opt_entry ht npt direction pfxThis pair with
      | none => build_options ht npt direction pfxThis lenopts gc rest
      | some e =>
        match build_options ht npt direction pfxThis lenopts gc rest with
        | Sum.inl c => Sum.inl c
        | Sum.inr es => Sum.inr (e :: es)

/-- `prefix_this` of `next_connection`: the last letter of the current part's
name for single-pol-labeled part-types, empty otherwise. -/
def pfx_this (ht : String) (A : PartDossier) : String :=
  if (single_pol_labeled_parts ht).contains A.part_type then str_lower (str_take_right A.hpn 1)
  else ""

/-- The first tie-break pass of `next_connection`: the first option whose
this-side port equals the current port and whose far-side port is in the
allowed next-port group. -/
def first_pass (curPort : String) (allowed : List (Option String)) (options : List OptEntry) :
    Option OptEntry :=
  options.find? (fun o => curPort == o.this && allowed.contains (some o.next))

/-- The second tie-break pass of `next_connection`: the first option whose
this-side port starts with the polarization character and whose far-side port
is in the allowed next-port group. -/
def second_pass (pol : String) (allowed : List (Option String)) (options : List OptEntry) :
    Option OptEntry :=
  options.find? (fun o => str_front pol == str_front o.this && allowed.contains (some o.next))

/-- `cm_sysdef.next_connection`.  The outer `Option` embeds the source's
raises (`KeyError` on an unregistered part-type, direction or polarization);
`some none` is the source returning `None` (no next connection), including the
implicit fall-through after both tie-break passes.  `ht` is the process-wide
`this_hookup_type` selection. -/
def next_connection (ht : String) (connection_options : List Conn) (current : Current)
    (A : PartDossier) (B : List PartDossier) : Option (Option Conn) :=
  match part_def_lookup ht A.part_type, dir_arrow current.direction with
  | some thisInfo, some arrow =>
    let path := full_connection_path ht
    let nextPos : Int := (thisInfo.position : Int) + arrow
    if nextPos < 0 ∨ nextPos > (path.length : Int) - 1 then some none
    else
      match path.get? nextPos.toNat with
      | none => none
      | some npt =>
        match part_def_lookup ht npt with
        | none => none
        | some ninfo =>
          match allowed_next_ports ht ninfo current.direction current.pol with
          | none => none
          | some allowed =>
            let pfxThis := pfx_this ht A
            let gc := (this_side_groups current.direction ninfo).length
            match build_options ht npt current.direction pfxThis
                connection_options.length gc (connection_options.zip B) with
            | Sum.inl c => some (some c)
            | Sum.inr options =>
              match first_pass current.port allowed options with
              | some o => some (some o.option)
              | none =>
                match second_pass current.pol allowed options with
                | some o => some (some o.option)
                | none => some none
  | _, _ => none

/-! ## cm_hookup: cache check (C3) -/

/-- `Hookup.__check_hookup_cache_file`, with the I/O inputs made explicit:
`fileExists` is `os.stat` succeeding, `cmHashTime` the newest
`CMVersion.update_time` (the database-change marker), `fileModTime` the cache
file's `st_mtime`, `cachedAtDate` the as-of date stored in the cache file,
`atDate` the query's as-of date, and `tolSec` the tolerance
(`60.0 * contemporaneous_minutes`, 300 seconds by default).  All times are in
seconds on a common axis, as the source's astropy `Time` comparisons are. -/
def check_hookup_cache_file (fileExists : Bool)
    (cmHashTime fileModTime cachedAtDate atDate tolSec : Int) : Bool :=
  if !fileExists then false
  else if fileModTime < cmHashTime then false
  else if cachedAtDate > cmHashTime && atDate > cmHashTime then true
  else if |cachedAtDate - atDate| < tolSec then true
  else false

/-- `Hookup.__set_hookup_cache` reduced to its decision: it recomputes (a full
database read plus a cache-file write) exactly when `force_new` is set or the
cache-file check fails; otherwise the cached table is used. -/
def set_hookup_cache_recomputes (forceNew : Bool) (checkResult : Bool) : Bool :=
  forceNew || !checkResult

/-! ## cm_hookup: the traversal walker -/

/-- Modelled from the spec: `part_connect.both_pols` is imported by
`cm_hookup.py` but `part_connect.py` is not among the sources.  The spec and
`cm_sysdef.py` fix the polarization characters as `'e'` and `'n'`. -/
def both_pols : List String := ["e", "n"]

/-- `Hookup.__check_next_port`.  `none` embeds the `ValueError` raised when
more than one candidate is present and the polarization is not `'e'`/`'n'`.
With a single candidate only a part named `PAM*` is checked (its port's
leading character must match the polarization); with several candidates the
effective polarization of the candidate port is compared with `pol`:
`'a'`/`'b'` ports take it from the far part name's last letter, ports leading
with a polarization character from that character, any other port is assumed
to match. -/
def check_next_port (next_part option_port pol : String) (lenopt : Nat) : Option Bool :=
  if lenopt = 1 then
    if str_upper (str_take next_part 3) = "PAM" ∧ str_lower (str_take option_port 1) ≠ str_lower pol then
      some false
    else some true
  else
    if both_pols.contains (str_lower pol) then
      let p :=
        if ["a", "b"].contains (str_lower option_port) then str_lower (str_take_right next_part 1)
        else if both_pols.contains (str_lower (str_take option_port 1)) then
          str_lower (str_take option_port 1)
        else pol
      some (p = pol)
    else none

/-- The result of one step of `Hookup.__get_next_connection`: an uncaught
raise, no acceptable next connection (`None`), or the accepted connection. -/
inductive NextResult where
  | err : NextResult
  | stop : NextResult
  | step : Conn → NextResult
deriving DecidableEq

/-- The accept loop of `Hookup.__get_next_connection`: the first active
candidate passing `__check_next_port` wins; `err` propagates the raise. -/
def find_accepted (pol : String) (lenopt : Nat) (direction : String) :
    List Conn → NextResult
  | [] => .stop
  | opc :: rest =>
    let np := if direction = "up" then opc.upstream_part else opc.downstream_part
    let pp := if direction = "up" then opc.upstream_output_port else opc.downstream_input_port
    match check_next_port np pp pol lenopt with
    | none => .err
    | some true => .step opc
    | some false => find_accepted pol lenopt direction rest

/-- `Hookup.__get_next_connection`: query the connections incident on
`(part, rev)` in the requested direction (case-insensitive name match), keep
the ones active at the as-of date in database order, and accept the first one
passing the port check.  The topology position is never consulted here. -/
def get_next_connection (conns : List Conn) (atDate : Nat)
    (direction part rev pol : String) : NextResult :=
  let options :=
    if str_lower direction = "up" then
      conns.filter (fun c =>
        str_upper c.downstream_part == str_upper part && str_upper c.down_part_rev == str_upper rev &&
          is_active atDate c.start_gpstime c.stop_gpstime)
    else if str_lower direction = "down" then
      conns.filter (fun c =>
        str_upper c.upstream_part == str_upper part && str_upper c.up_part_rev == str_upper rev &&
          is_active atDate c.start_gpstime c.stop_gpstime)
    else []
  find_accepted pol options.length (str_lower direction) options

/-- `Hookup.__recursive_go` for one leg, with an explicit recursion budget:
`none` when the budget runs out (the source recurses without any bound; Python
would raise `RecursionError`) or a port check raises; otherwise the list of
accepted connections in step order. -/
def recursive_go_chain (conns : List Conn) (atDate : Nat) (direction pol : String) :
    Nat → String → String → Option (List Conn)
  | 0, _, _ => none
  | fuel + 1, part, rev =>
    match get_next_connection conns atDate direction part rev pol with
    | .err => none
    | .stop => some []
    | .step conn =>
      if direction = "up" then
        (recursive_go_chain conns atDate direction pol fuel conn.upstream_part
          conn.up_part_rev).map (conn :: ·)
      else
        (recursive_go_chain conns atDate direction pol fuel conn.downstream_part
          conn.down_part_rev).map (conn :: ·)

/-- `Hookup.__follow_hookup_stream`: reversed upstream leg followed by the
downstream leg. -/
def follow_hookup_stream (conns : List Conn) (atDate : Nat) (part rev pol : String)
    (fuel : Nat) : Option (List Conn) :=
  match recursive_go_chain conns atDate "up" pol fuel part rev,
      recursive_go_chain conns atDate "down" pol fuel part rev with
  | some ups, some downs => some (ups.reverse ++ downs)
  | _, _ => none

/-- The part-type sequence of a resolved chain, as `__get_part_types_found`
visits it: the part-type of each connection's upstream part and, last, of the
final connection's downstream part.  `pt` stands for the external
`cm_handling.get_part_type_for` lookup. -/
def chain_part_types (pt : String → String) (chain : List Conn) : List String :=
  chain.map (fun c => str_lower (pt c.upstream_part)) ++
    (match chain.getLast? with
     | none => []
     | some c => [str_lower (pt c.downstream_part)])

/-! ## cm_hookup: timing and flags, is_fully_connected -/

/-- The inner loop of `Hookup.__add_hookup_timing_and_flags` over one chain:
`latest_start` starts at 0 and takes every strictly larger start;
`earliest_stop` starts at `None`, skips `None` stops and takes every strictly
smaller stop. -/
def timing_of_chain (chain : List Conn) : Nat × Option Nat :=
  chain.foldl
    (fun acc c =>
      (if c.start_gpstime > acc.1 then c.start_gpstime else acc.1,
       match c.stop_gpstime, acc.2 with
       | none, e => e
       | some s, none => some s
       | some s, some e => if s < e then some s else e))
    (0, none)

/-- The `latest_start` accumulator of `__add_hookup_timing_and_flags` on its
own: starting from `a`, take every strictly larger start time. -/
def latest_start (a : Nat) : List Conn → Nat
  | [] => a
  | c :: cs => latest_start (if c.start_gpstime > a then c.start_gpstime else a) cs

/-- The `earliest_stop` accumulator of `__add_hookup_timing_and_flags` on its
own: starting from `e`, skip `None` stops and take every strictly smaller
stop. -/
def earliest_stop (e : Option Nat) : List Conn → Option Nat
  | [] => e
  | c :: cs =>
    earliest_stop
      (match c.stop_gpstime, e with
       | none, x => x
       | some s, none => some s
       | some s, some x => if s < x then some s else x) cs

/-- The hookup dictionary as `__add_hookup_timing_and_flags` and
`is_fully_connected` read it: `hookup` maps part-key, then polarization, to
the resolved chain; `fully_connected` and `timing` are keyed the same way;
`parts_epoch_path` is `hookup_dict['parts_epoch']['path']`. -/
structure HookupDict where
  hookup : List (String × List (String × List Conn))
  fully_connected : List (String × List (String × Bool))
  timing : List (String × List (String × (Nat × Option Nat)))
  parts_epoch_path : List String
  columns : List String

/-- `Hookup.__add_hookup_timing_and_flags`: per entry, the timing window by
`timing_of_chain` and the fully-connected flag, true exactly when the chain
length equals the epoch path length minus one (integer arithmetic, as in the
source); `'start'` and `'stop'` are appended to the columns. -/
def add_hookup_timing_and_flags (d : HookupDict) : HookupDict :=
  let fullLen : Int := (d.parts_epoch_path.length : Int) - 1
  { d with
    timing := d.hookup.map (fun a => (a.1, a.2.map (fun p => (p.1, timing_of_chain p.2)))),
    fully_connected := d.hookup.map (fun a =>
      (a.1, a.2.map (fun p => (p.1, decide ((p.2.length : Int) = fullLen))))),
    columns := d.columns ++ ["start", "stop"] }

/-- Double lookup in a part-key/polarization-keyed dictionary. -/
def lookup_pol (m : List (String × List (String × α))) (akey pkey : String) : Option α :=
  (List.lookup akey m).bind (List.lookup pkey)

/-- The per-entry count of `is_fully_connected`: 0 when the part-key is not in
`fully_connected` (the source's short-circuited `in` test), 1 or 0 from the
flag when it is; `none` embeds the `KeyError` when the part-key is present but
the polarization is not. -/
def fully_connected_count (fully : List (String × List (String × Bool)))
    (akey pkey : String) : Option Nat :=
  match List.lookup akey fully with
  | none => some 0
  | some m =>
    match List.lookup pkey m with
    | none => none
    | some b => some (if b then 1 else 0)

/-- `cm_hookup.is_fully_connected`: count the entries and the fully connected
entries over every part-key and polarization; with `any_or_all = 'all'` report
that all are fully connected (vacuously true when the dictionary is empty),
otherwise that at least one is. -/
def is_fully_connected (d : HookupDict) (any_or_all : String) : Option Bool :=
  let counts :=
    d.hookup.foldl
      (fun acc a =>
        a.2.foldl
          (fun acc2 p =>
            match acc2 with
            | none => none
            | some (nf, ni) =>
              match fully_connected_count d.fully_connected a.1 p.1 with
              | none => none
              | some k => some (nf + k, ni + 1))
          acc)
      (some (0, 0))
  match counts with
  | none => none
  | some (nf, ni) => some (if any_or_all = "all" then nf == ni else nf > 0)

/-! ## cm_revisions: get_active_revision -/

/-- One revision record as `part_connect.get_part_revisions` returns it:
revision identifier with start and (optional) end time. -/
structure RevRecord where
  hpn : String
  rev : String
  started : Nat
  ended : Option Nat
deriving DecidableEq

/-- `cm_revisions.get_active_revision`: walk the revisions in sorted key
order, keep the ones active at the as-of date, and — when more than one is
active — the source calls `warning.warn(s)`, an unresolved name (the module
imports `warnings`), so Python raises `NameError`; the `Except.error` embeds
that raise. -/
def get_active_revision (hpn : String) (atDate : Nat)
    (revisions : List (String × Nat × Option Nat)) : Except String (List RevRecord) :=
  if revisions.isEmpty then .ok []
  else
    let sortRev := sort_by str_le (revisions.map (fun r => r.1))
    let returnActive := sortRev.filterMap (fun rev =>
      match List.lookup rev revisions with
      | none => none
      | some (st, en) =>
        if is_active atDate st en then some ⟨hpn, rev, st, en⟩ else none)
    if returnActive.length > 1 then .error "NameError: name 'warning' is not defined"
    else .ok returnActive

/-! ## cm_health: overlap check (C8) -/

/-- A gps-time window `[low, high]`; `high = none` is the source's `None`
(open-ended). In both callers of `check_for_overlap` the low end is always a
concrete time. -/
structure Interval where
  lo : Int
  hi : Option Int
deriving DecidableEq

/-- `cm_health.check_for_overlap`.  The source takes
`[[lo0, hi0], [lo1, hi1]]`, replaces `None` highs by
`max(non-None values) + 100`, and reports `hi0 > lo1 and hi1 > lo0`.
`maxx` folds from `i0.lo`, which is itself one of the non-None values, so the
fold equals Python's `max` of the list. -/
def check_for_overlap (i0 i1 : Interval) : Bool :=
  let vals := [some i0.lo, i0.hi, some i1.lo, i1.hi].filterMap id
  let maxx := (vals.foldl max i0.lo) + 100
  let h0 := i0.hi.getD maxx
  let h1 := i1.hi.getD maxx
  decide (h0 > i1.lo) && decide (h1 > i0.lo)

/-- Strict intersection of two closed windows whose `none` high end means
plus-infinity: each window must start strictly before the other ends. -/
def strictly_intersect (i0 i1 : Interval) : Prop :=
  (match i0.hi with
   | none => True
   | some b => i1.lo < b) ∧
  (match i1.hi with
   | none => True
   | some d => i0.lo < d)

/-! ## cm_sysdef: claim-shaped selector spec -/

/-- The eligible option list of `next_connection`, written declaratively: the
candidates (in evaluation order) whose far part has the expected next
part-type and whose far-side port does not start with `'@'`. -/
def option_entries (ht npt direction pfx : String) (pairs : List (Conn × PartDossier)) :
    List OptEntry :=
  pairs.filterMap (mk_opt_entry ht npt direction pfx)

/-- The two-pass tie-break, written declaratively: the first pass winner, else
the second pass winner, else no next connection. -/
def tie_break (curPort pol : String) (allowed : List (Option String))
    (options : List OptEntry) : Option Conn :=
  ((first_pass curPort allowed options) <|> (second_pass pol allowed options)).map
    OptEntry.option

/-! ## Concrete instances used in the closed statements -/

/-- A self-loop connection: `A1` feeds itself.  The raw data is a cycle. -/
def c1_loop : Conn := ⟨"A1", "A", "out", "A1", "A", "in", 0, none⟩

/-- First hop of the C5 counterexample: station `A1` to antenna `B1`. -/
def c5_ab : Conn := ⟨"A1", "A", "p1", "B1", "A", "p2", 0, none⟩

/-- Second hop of the C5 counterexample: antenna `B1` back to a station-typed
part `C1`. -/
def c5_bc : Conn := ⟨"B1", "A", "p3", "C1", "A", "p4", 0, none⟩

/-- The part-type lookup of the C5 counterexample (`cm_handling` is external):
`B1` is an antenna, every other part a station. -/
def c5_pt : String → String := fun s => if s = "B1" then "antenna" else "station"

/-- C2 counterexample candidate 1: antenna `AN1` port `focus` to feed `FD1`,
far-side port `bogus` (not an allowed feed port). -/
def c2_conn1 : Conn := ⟨"AN1", "A", "focus", "FD1", "A", "bogus", 7, none⟩

/-- C2 counterexample candidate 2: antenna `AN1` port `focus` to feed `FD2`,
far-side port `junk` (not an allowed feed port). -/
def c2_conn2 : Conn := ⟨"AN1", "A", "focus", "FD2", "A", "junk", 7, none⟩

/-- C2 witness candidate 1: front-end `FE1` port `e` to cable-rfof `CBL1`
port `ea`. -/
def c2w_c1 : Conn := ⟨"FE1", "A", "e", "CBL1", "A", "ea", 0, none⟩

/-- C2 witness candidate 2: front-end `FE1` port `n` to cable-rfof `CBL2`
port `na`. -/
def c2w_c2 : Conn := ⟨"FE1", "A", "n", "CBL2", "A", "na", 0, none⟩

/-- C4 counterexample: the sole candidate from post-amp `PA7` to the
single-pol-labeled part `RO1N` (an `n`-polarization part name). -/
def c4_conn : Conn := ⟨"PA7", "A", "eb", "RO1N", "A", "b", 0, none⟩

/-- C4 witness: a sole candidate from antenna `AN9` to feed `FD9` with port
names that match nothing in the topology. -/
def c4w_conn : Conn := ⟨"AN9", "A", "zzz", "FD9", "A", "qqq", 0, none⟩

/-- C5 witness: a single connection from station `ST1` to antenna `AN1`. -/
def c5w_conn : Conn := ⟨"ST1", "A", "ground", "AN1", "A", "ground", 0, none⟩

/-- A placeholder connection for chains whose contents are irrelevant. -/
def c_dummy : Conn := ⟨"X", "A", "o", "Y", "A", "i", 0, none⟩

/-- C6 witness dictionary: an epoch path of length 4 and chains of lengths
0, 1, 2 and 3. -/
def d6 : HookupDict :=
  ⟨[("HH0:A", [("e", []), ("n", [c_dummy])]),
    ("HH1:A", [("e", [c_dummy, c_dummy]), ("n", [c_dummy, c_dummy, c_dummy])])],
   [], [], ["station", "antenna", "feed", "front-end"], []⟩

/-- The two-hop chain of the spec's C7 example: hop windows `[0, 100]` and
`[0, null]`. -/
def c7_chain : List Conn :=
  [⟨"A1", "A", "o1", "B1", "A", "i1", 0, some 100⟩,
   ⟨"B1", "A", "o2", "C1", "A", "i2", 0, none⟩]

/-- C7 witness dictionary holding the two-hop example chain. -/
def d7 : HookupDict :=
  ⟨[("A1:A", [("e", c7_chain)])], [], [], ["a", "b", "c"], []⟩

/-- C10 witness dictionary: an empty `hookup` map (with a stray
`fully_connected` entry, which the counts never visit). -/
def d10 : HookupDict :=
  ⟨[], [("HH0:A", [("e", true)])], [], [], []⟩

end HeraMC

namespace HeraMC

theorem check_for_overlap_iff (i0 i1 : Interval) :
    check_for_overlap i0 i1 = true ↔ strictly_intersect i0 i1 := by
  rcases i0 with ⟨a, b⟩
  rcases i1 with ⟨c, d⟩
  rcases b with _ | b <;> rcases d with _ | d <;>
    simp only [check_for_overlap, strictly_intersect, List.filterMap, Option.getD,
      List.foldl, id] <;>
    simp only [Bool.and_eq_true, decide_eq_true_eq, gt_iff_lt] <;>
    constructor <;> intro h <;> (try refine ⟨?_, ?_⟩) <;> first | trivial | omega

/-- C8: the revision-overlap check (`cm_health.check_for_overlap`, the test
applied by `check_part_for_overlapping_revisions` and
`check_for_duplicate_connections` to each pair of windows) flags two windows
exactly when they strictly intersect (open-ended `none` highs standing for
plus-infinity); in particular `[100, 200]` and `[150, 300]` overlap while the
boundary-touching `[100, 200]` and `[200, 300]` do not. -/
theorem claim_C8 :
    (∀ i0 i1 : Interval, check_for_overlap i0 i1 = true ↔ strictly_intersect i0 i1) ∧
    check_for_overlap ⟨100, some 200⟩ ⟨150, some 300⟩ = true ∧
    check_for_overlap ⟨100, some 200⟩ ⟨200, some 300⟩ = false :=
  ⟨check_for_overlap_iff, by decide, by decide⟩

/-- C3 counterexample: with the database-change marker (200) newer than the
cache file's modification time (100) the check returns stale and the cache is
recomputed, even though the cached as-of date (50) and the query as-of date
(60) are within the 300-second tolerance of each other and both precede the
marker — the situation in which the claim requires the entry to be fresh. -/
theorem claim_C3_counterexample :
    check_hookup_cache_file true 200 100 50 60 300 = false ∧
    |(50 : Int) - 60| < 300 ∧ (50 : Int) < 200 ∧ (60 : Int) < 200 ∧ (100 : Int) < 200 ∧
    set_hookup_cache_recomputes false (check_hookup_cache_file true 200 100 50 60 300) = true := by
  decide

/-- C3 amended: an existing cache entry is stale — and `get()` recomputes —
whenever the change marker is newer than the cache file's modification time,
regardless of the as-of dates; when the file time is not older than the
marker, the entry is fresh if both as-of dates exceed the marker or the two
as-of dates are within the tolerance window of each other, and stale when
neither holds. -/
theorem check_hookup_cache_file_true_iff (cm ft c a tol : Int) :
    check_hookup_cache_file true cm ft c a tol = true ↔
      cm ≤ ft ∧ ((c > cm ∧ a > cm) ∨ |c - a| < tol) := by
  unfold check_hookup_cache_file
  split_ifs with h0 h1 h2 h3
  · simp at h0
  · simp only [Bool.false_eq_true, false_iff]
    rintro ⟨hle, -⟩
    omega
  · rw [Bool.and_eq_true, decide_eq_true_eq, decide_eq_true_eq] at h2
    simp only [true_iff]
    exact ⟨by omega, Or.inl h2⟩
  · simp only [true_iff]
    exact ⟨by omega, Or.inr h3⟩
  · rw [Bool.and_eq_true, decide_eq_true_eq, decide_eq_true_eq] at h2
    simp only [Bool.false_eq_true, false_iff]
    rintro ⟨hle, hb | hw⟩
    · exact h2 hb
    · exact h3 hw

theorem claim_C3_amended (cm ft c a tol : Int) :
    (ft < cm → check_hookup_cache_file true cm ft c a tol = false ∧
      set_hookup_cache_recomputes false (check_hookup_cache_file true cm ft c a tol) = true) ∧
    (cm ≤ ft → c > cm → a > cm → check_hookup_cache_file true cm ft c a tol = true) ∧
    (cm ≤ ft → |c - a| < tol → check_hookup_cache_file true cm ft c a tol = true) ∧
    (cm ≤ ft → ¬(c > cm ∧ a > cm) → |c - a| ≥ tol →
      check_hookup_cache_file true cm ft c a tol = false ∧
      set_hookup_cache_recomputes false (check_hookup_cache_file true cm ft c a tol) = true) := by
  have hiff := check_hookup_cache_file_true_iff cm ft c a tol
  refine ⟨fun h => ?_, fun h1 h2 h3 => ?_, fun h1 h2 => ?_, fun h1 h2 h3 => ?_⟩
  · have hc : check_hookup_cache_file true cm ft c a tol = false := by
      cases hc : check_hookup_cache_file true cm ft c a tol
      · rfl
      · exact absurd (hiff.mp hc).1 (by omega)
    exact ⟨hc, by rw [set_hookup_cache_recomputes, hc]; rfl⟩
  · exact hiff.mpr ⟨h1, Or.inl ⟨h2, h3⟩⟩
  · exact hiff.mpr ⟨h1, Or.inr h2⟩
  · have hc : check_hookup_cache_file true cm ft c a tol = false := by
      cases hc : check_hookup_cache_file true cm ft c a tol
      · rfl
      · rcases (hiff.mp hc).2 with hb | hw
        · exact absurd hb h2
        · omega
    exact ⟨hc, by rw [set_hookup_cache_recomputes, hc]; rfl⟩

/-- C3 witness: the amended rule at concrete dates — marker 300 newer than
file time 100 forces a recompute; marker 100 with file time 150 and both
as-of dates after the marker is fresh; marker 100 with file time 150 and
as-of dates 10 and 20 (within tolerance 300) is fresh; marker 100 with file
time 150 and as-of dates 10 and 2000 (not both past the marker, further apart
than the tolerance) is stale and recomputes. -/
theorem claim_C3_witness :
    (check_hookup_cache_file true 300 100 1 2 300 = false ∧
      set_hookup_cache_recomputes false (check_hookup_cache_file true 300 100 1 2 300) = true) ∧
    check_hookup_cache_file true 100 150 200 999 300 = true ∧
    check_hookup_cache_file true 100 150 10 20 300 = true ∧
    (check_hookup_cache_file true 100 150 10 2000 300 = false ∧
      set_hookup_cache_recomputes false (check_hookup_cache_file true 100 150 10 2000 300) = true) :=
  ⟨(claim_C3_amended 300 100 1 2 300).1 (by decide),
   (claim_C3_amended 100 150 200 999 300).2.1 (by decide) (by decide) (by decide),
   (claim_C3_amended 100 150 10 20 300).2.2.1 (by decide) (by decide),
   (claim_C3_amended 100 150 10 2000 300).2.2.2 (by decide) (by decide) (by decide)⟩

/-- C9: `get_active_revision` on a part with two revisions (`A` and `B`, both
open-ended from times 0 and 5) that are both active at date 10 does not
return the two active revisions with a warning: the source's
`warning.warn(s)` (the module imports `warnings`, not `warning`) raises
`NameError`, so the query fails. -/
theorem claim_C9 :
    get_active_revision "P1" 10 [("A", 0, none), ("B", 5, none)] =
      .error "NameError: name 'warning' is not defined" ∧
    is_active 10 0 none = true ∧ is_active 10 5 none = true :=
  ⟨rfl, rfl, rfl⟩

/-- C10: on a hookup dictionary whose `hookup` map is empty,
`is_fully_connected` returns true for `any_or_all = 'all'` (the count 0
equals the count 0) and false for any other value (no fully connected entry
exists); no error is raised. -/
theorem claim_C10 (d : HookupDict) (s : String) (h1 : d.hookup = []) (h2 : s ≠ "all") :
    is_fully_connected d "all" = some true ∧ is_fully_connected d s = some false := by
  rw [is_fully_connected, is_fully_connected, h1]
  simp [h2]

/-- C10 witness: the empty-hookup dictionary `d10` with the non-`'all'` mode
`'any'`. -/
theorem claim_C10_witness :
    is_fully_connected d10 "all" = some true ∧ is_fully_connected d10 "any" = some false :=
  claim_C10 d10 "any" rfl (by decide)

theorem lookup_map_snd (l : List (String × β)) (f : β → γ) (k : String) :
    List.lookup k (l.map (fun p => (p.1, f p.2))) = (List.lookup k l).map f := by
  induction l with
  | nil => rfl
  | cons hd tl ih =>
    by_cases hk : k == hd.1
    · simp [List.lookup, hk]
    · simp [List.lookup, hk, ih]

theorem lookup_pol_map (m : List (String × List (String × β))) (f : β → γ)
    (akey pkey : String) :
    lookup_pol (m.map (fun a => (a.1, a.2.map (fun p => (p.1, f p.2))))) akey pkey
      = (lookup_pol m akey pkey).map f := by
  rw [lookup_pol, lookup_pol, lookup_map_snd]
  cases List.lookup akey m with
  | none => rfl
  | some inner => simp [lookup_map_snd]

/-- C6: for every hookup entry, `__add_hookup_timing_and_flags` sets the
fully-connected flag to true exactly when the chain length equals the epoch
path length minus one. -/
theorem claim_C6 (d : HookupDict) (akey pkey : String) (ch : List Conn)
    (h : lookup_pol d.hookup akey pkey = some ch) :
    lookup_pol (add_hookup_timing_and_flags d).fully_connected akey pkey
      = some (decide ((ch.length : Int) = (d.parts_epoch_path.length : Int) - 1)) := by
  show lookup_pol (d.hookup.map (fun a => (a.1, a.2.map (fun p =>
      (p.1, decide ((p.2.length : Int) = (d.parts_epoch_path.length : Int) - 1)))))) akey pkey
    = _
  rw [lookup_pol_map (f := fun ch : List Conn =>
    decide ((ch.length : Int) = (d.parts_epoch_path.length : Int) - 1)), h]
  rfl

/-- C6 witness: in the dictionary `d6` with epoch path length 4, the chains of
lengths 0, 1 and 2 are flagged not fully connected and the chain of length 3
is flagged fully connected. -/
theorem claim_C6_witness :
    lookup_pol (add_hookup_timing_and_flags d6).fully_connected "HH0:A" "e" = some false ∧
    lookup_pol (add_hookup_timing_and_flags d6).fully_connected "HH0:A" "n" = some false ∧
    lookup_pol (add_hookup_timing_and_flags d6).fully_connected "HH1:A" "e" = some false ∧
    lookup_pol (add_hookup_timing_and_flags d6).fully_connected "HH1:A" "n" = some true := by
  refine ⟨?_, ?_, ?_, ?_⟩
  · rw [claim_C6 d6 "HH0:A" "e" [] rfl]
    decide
  · rw [claim_C6 d6 "HH0:A" "n" [c_dummy] rfl]
    decide
  · rw [claim_C6 d6 "HH1:A" "e" [c_dummy, c_dummy] rfl]
    decide
  · rw [claim_C6 d6 "HH1:A" "n" [c_dummy, c_dummy, c_dummy] rfl]
    decide

theorem latest_start_cons (a : Nat) (c : Conn) (cs : List Conn) :
    latest_start a (c :: cs) =
      latest_start (if c.start_gpstime > a then c.start_gpstime else a) cs := rfl

theorem earliest_stop_cons (e : Option Nat) (c : Conn) (cs : List Conn) :
    earliest_stop e (c :: cs) =
      earliest_stop
        (match c.stop_gpstime, e with
         | none, x => x
         | some s, none => some s
         | some s, some x => if s < x then some s else x) cs := rfl

theorem timing_foldl_eq (ch : List Conn) (a : Nat) (e : Option Nat) :
    ch.foldl
      (fun acc c =>
        (if c.start_gpstime > acc.1 then c.start_gpstime else acc.1,
         match c.stop_gpstime, acc.2 with
         | none, x => x
         | some s, none => some s
         | some s, some x => if s < x then some s else x))
      (a, e) = (latest_start a ch, earliest_stop e ch) := by
  induction ch generalizing a e with
  | nil => rfl
  | cons c cs ih =>
    rw [List.foldl_cons, latest_start_cons, earliest_stop_cons]
    exact ih _ _

theorem timing_of_chain_eq (ch : List Conn) :
    timing_of_chain ch = (latest_start 0 ch, earliest_stop none ch) :=
  timing_foldl_eq ch 0 none

theorem le_latest_start (a : Nat) (ch : List Conn) : a ≤ latest_start a ch := by
  induction ch generalizing a with
  | nil => exact Nat.le_refl a
  | cons c cs ih =>
    rw [latest_start]
    refine Nat.le_trans ?_ (ih _)
    split <;> omega

theorem start_le_latest_start (ch : List Conn) (c : Conn) :
    ∀ a, c ∈ ch → c.start_gpstime ≤ latest_start a ch := by
  induction ch with
  | nil =>
    intro a hc
    cases hc
  | cons d ds ih =>
    intro a hc
    rw [latest_start_cons]
    rcases List.mem_cons.mp hc with h | h
    · subst h
      exact Nat.le_trans (by split <;> omega) (le_latest_start _ ds)
    · exact ih _ h

theorem latest_start_mem (a : Nat) (ch : List Conn) :
    latest_start a ch = a ∨ latest_start a ch ∈ ch.map (fun c => c.start_gpstime) := by
  induction ch generalizing a with
  | nil => exact Or.inl rfl
  | cons c cs ih =>
    rw [latest_start_cons]
    rcases ih (if c.start_gpstime > a then c.start_gpstime else a) with h | h
    · rw [h]
      split
      · right
        simp
      · exact Or.inl rfl
    · right
      simp only [List.map_cons]
      exact List.mem_cons_of_mem _ h

theorem earliest_stop_none_iff (e : Option Nat) (ch : List Conn) :
    earliest_stop e ch = none ↔
      e = none ∧ ch.filterMap (fun c => c.stop_gpstime) = [] := by
  induction ch generalizing e with
  | nil => simp [earliest_stop]
  | cons c cs ih =>
    rw [earliest_stop_cons, ih]
    rcases hcs : c.stop_gpstime with _ | s
    · simp [List.filterMap_cons, hcs]
    · rcases e with _ | x
      · simp [List.filterMap_cons, hcs]
      · simp only [List.filterMap_cons, hcs]
        constructor
        · rintro ⟨hx, -⟩
          split at hx <;> cases hx
        · rintro ⟨hx, -⟩
          cases hx

theorem earliest_stop_min (e : Option Nat) (ch : List Conn) (m : Nat)
    (hm : earliest_stop e ch = some m) :
    (m ∈ ch.filterMap (fun c => c.stop_gpstime) ∨ e = some m) ∧
    (∀ s ∈ ch.filterMap (fun c => c.stop_gpstime), m ≤ s) ∧
    (∀ x, e = some x → m ≤ x) := by
  induction ch generalizing e with
  | nil =>
    rw [show earliest_stop e [] = e from rfl] at hm
    subst hm
    refine ⟨Or.inr rfl, by simp, ?_⟩
    intro x hx
    injection hx with hx
    omega
  | cons c cs ih =>
    rw [earliest_stop_cons] at hm
    rcases hcs : c.stop_gpstime with _ | s
    · rw [hcs] at hm
      obtain ⟨h1, h2, h3⟩ := ih e hm
      simp only [List.filterMap_cons, hcs]
      exact ⟨h1, h2, h3⟩
    · rcases e with _ | x
      · rw [hcs] at hm
        obtain ⟨h1, h2, h3⟩ := ih (some s) hm
        have hms : m ≤ s := h3 s rfl
        simp only [List.filterMap_cons, hcs]
        refine ⟨?_, ?_, ?_⟩
        · rcases h1 with h | h
          · exact Or.inl (List.mem_cons_of_mem _ h)
          · cases h
            exact Or.inl (List.mem_cons_self _ _)
        · intro t ht
          rcases List.mem_cons.mp ht with rfl | ht
          · exact hms
          · exact h2 t ht
        · rintro y hy
          cases hy
      · rw [hcs] at hm
        simp only at hm
        by_cases hsx : s < x
        · rw [if_pos hsx] at hm
          obtain ⟨h1, h2, h3⟩ := ih (some s) hm
          have hms : m ≤ s := h3 s rfl
          simp only [List.filterMap_cons, hcs]
          refine ⟨?_, ?_, ?_⟩
          · rcases h1 with h | h
            · exact Or.inl (List.mem_cons_of_mem _ h)
            · cases h
              exact Or.inl (List.mem_cons_self _ _)
          · intro t ht
            rcases List.mem_cons.mp ht with rfl | ht
            · exact hms
            · exact h2 t ht
          · rintro y hy
            cases hy
            omega
        · rw [if_neg hsx] at hm
          obtain ⟨h1, h2, h3⟩ := ih (some x) hm
          have hmx : m ≤ x := h3 x rfl
          simp only [List.filterMap_cons, hcs]
          refine ⟨?_, ?_, ?_⟩
          · rcases h1 with h | h
            · exact Or.inl (List.mem_cons_of_mem _ h)
            · exact Or.inr h
          · intro t ht
            rcases List.mem_cons.mp ht with rfl | ht
            · omega
            · exact h2 t ht
          · rintro y hy
            cases hy
            exact hmx

/-- C7: for every hookup entry with a nonempty chain,
`__add_hookup_timing_and_flags` records the window `timing_of_chain`, whose
start is the latest of the segment start times (it is one of them and bounds
them all) and whose stop is `none` exactly when every segment stop is null,
and otherwise the smallest non-null segment stop. -/
theorem claim_C7 (d : HookupDict) (akey pkey : String) (ch : List Conn)
    (h1 : lookup_pol d.hookup akey pkey = some ch) (h2 : ch ≠ []) :
    lookup_pol (add_hookup_timing_and_flags d).timing akey pkey = some (timing_of_chain ch) ∧
    ((timing_of_chain ch).1 ∈ ch.map (fun c => c.start_gpstime) ∧
      ∀ c ∈ ch, c.start_gpstime ≤ (timing_of_chain ch).1) ∧
    ((timing_of_chain ch).2 = none ↔ ch.filterMap (fun c => c.stop_gpstime) = []) ∧
    (∀ m, (timing_of_chain ch).2 = some m →
      m ∈ ch.filterMap (fun c => c.stop_gpstime) ∧
        ∀ s ∈ ch.filterMap (fun c => c.stop_gpstime), m ≤ s) := by
  refine ⟨?_, ⟨?_, ?_⟩, ?_, ?_⟩
  · show lookup_pol (d.hookup.map (fun a => (a.1, a.2.map (fun p =>
        (p.1, timing_of_chain p.2))))) akey pkey = _
    rw [lookup_pol_map (f := timing_of_chain), h1]
    rfl
  · rw [timing_of_chain_eq]
    rcases latest_start_mem 0 ch with h | h
    · rcases ch with _ | ⟨c, cs⟩
      · exact absurd rfl h2
      · have hc : c.start_gpstime ≤ latest_start 0 (c :: cs) :=
          start_le_latest_start _ c 0 (List.mem_cons_self _ _)
        rw [h] at hc ⊢
        have : c.start_gpstime = 0 := Nat.le_zero.mp hc
        simp [← this]
    · exact h
  · rw [timing_of_chain_eq]
    intro c hc
    exact start_le_latest_start ch c 0 hc
  · rw [timing_of_chain_eq]
    rw [earliest_stop_none_iff]
    simp
  · rw [timing_of_chain_eq]
    intro m hm
    obtain ⟨hmem, hmin, -⟩ := earliest_stop_min none ch m hm
    rcases hmem with h | h
    · exact ⟨h, hmin⟩
    · cases h

/-- C7 witness: the spec's two-hop example — hop windows `[0, 100]` and
`[0, null]` yield the timing window `[0, 100]`. -/
theorem claim_C7_witness :
    lookup_pol (add_hookup_timing_and_flags d7).timing "A1:A" "e" = some (0, some 100) ∧
    timing_of_chain c7_chain = (0, some 100) :=
  ⟨(claim_C7 d7 "A1:A" "e" c7_chain rfl (by decide)).1, rfl⟩

theorem mk_opt_entry_some (ht npt direction pfx : String) (pair : Conn × PartDossier)
    (o : OptEntry) (h : mk_opt_entry ht npt direction pfx pair = some o) :
    pair.2.part_type = npt ∧ o.option = pair.1 := by
  rw [mk_opt_entry] at h
  by_cases h1 : pair.2.part_type ≠ npt
  · rw [if_pos h1] at h
    cases h
  · rw [if_neg h1] at h
    by_cases h2 : str_front (next_port_of ht npt direction pair) = '@'
    · rw [if_pos h2] at h
      cases h
    · rw [if_neg h2] at h
      cases h
      exact ⟨not_not.mp h1, rfl⟩

theorem build_options_inl (ht npt direction pfx : String) (lo gc : Nat) (c : Conn) :
    ∀ l : List (Conn × PartDossier),
      build_options ht npt direction pfx lo gc l = Sum.inl c →
      ∃ p ∈ l, p.1 = c ∧ p.2.part_type = npt := by
  intro l
  induction l with
  | nil =>
    intro h
    cases h
  | cons pair rest ih =>
    intro h
    rw [build_options] at h
    split_ifs at h with h1 h2
    · obtain ⟨p, hp, hc⟩ := ih h
      exact ⟨p, List.mem_cons_of_mem _ hp, hc⟩
    · cases h
      exact ⟨pair, List.mem_cons_self _ _, rfl, not_not.mp h1⟩
    · rcases hmk : mk_opt_entry ht npt direction pfx pair with _ | e
      · rw [hmk] at h
        obtain ⟨p, hp, hc⟩ := ih h
        exact ⟨p, List.mem_cons_of_mem _ hp, hc⟩
      · rw [hmk] at h
        rcases hb : build_options ht npt direction pfx lo gc rest with c' | es
        · rw [hb] at h
          cases h
          obtain ⟨p, hp, hc⟩ := ih hb
          exact ⟨p, List.mem_cons_of_mem _ hp, hc⟩
        · rw [hb] at h
          cases h

theorem build_options_inr_mem (ht npt direction pfx : String) (lo gc : Nat) (o : OptEntry) :
    ∀ (l : List (Conn × PartDossier)) (os : List OptEntry),
      build_options ht npt direction pfx lo gc l = Sum.inr os → o ∈ os →
      ∃ p ∈ l, p.1 = o.option ∧ p.2.part_type = npt := by
  intro l
  induction l with
  | nil =>
    intro os h ho
    cases h
    cases ho
  | cons pair rest ih =>
    intro os h ho
    rw [build_options] at h
    split_ifs at h with h1 h2
    · obtain ⟨p, hp, hc⟩ := ih os h ho
      exact ⟨p, List.mem_cons_of_mem _ hp, hc⟩
    · rcases hmk : mk_opt_entry ht npt direction pfx pair with _ | e
      · rw [hmk] at h
        obtain ⟨p, hp, hc⟩ := ih os h ho
        exact ⟨p, List.mem_cons_of_mem _ hp, hc⟩
      · rw [hmk] at h
        rcases hb : build_options ht npt direction pfx lo gc rest with c' | es
        · rw [hb] at h
          cases h
        · rw [hb] at h
          cases h
          rcases List.mem_cons.mp ho with rfl | ho2
          · obtain ⟨ht1, hopt⟩ := mk_opt_entry_some ht npt direction pfx pair _ hmk
            exact ⟨pair, List.mem_cons_self _ _, hopt.symm, ht1⟩
          · obtain ⟨p, hp, hc⟩ := ih es hb ho2
            exact ⟨p, List.mem_cons_of_mem _ hp, hc⟩

theorem build_options_no_early (ht npt direction pfx : String) (lo gc : Nat)
    (hlo : lo ≠ 1) (hgc : gc ≠ 1) :
    ∀ l : List (Conn × PartDossier),
      build_options ht npt direction pfx lo gc l =
        Sum.inr (l.filterMap (mk_opt_entry ht npt direction pfx)) := by
  intro l
  induction l with
  | nil => rfl
  | cons pair rest ih =>
    rw [build_options]
    by_cases h1 : pair.2.part_type ≠ npt
    · have hmk0 : mk_opt_entry ht npt direction pfx pair = none := by
        rw [mk_opt_entry, if_pos h1]
      rw [if_pos h1, ih, List.filterMap_cons_none hmk0]
    · rw [if_neg h1, if_neg (fun h => h.elim hlo hgc)]
      rcases hmk : mk_opt_entry ht npt direction pfx pair with _ | e
      · rw [ih, List.filterMap_cons_none hmk]
      · rw [ih, List.filterMap_cons_some hmk]

/-- C1 counterexample: on the cyclic raw data consisting of the single
self-loop connection `A1 -> A1` (active at the as-of date), the downstream leg
of the walker consumes a recursion budget one larger than the full
`parts_hera` path length (8) without ever stopping — the step function still
returns an accepted connection at every visit — so the traversal does not
terminate within the epoch path length: the source recursion is unbounded
(Python `RecursionError`). -/
theorem claim_C1_counterexample :
    recursive_go_chain [c1_loop] 10 "down" "e"
      ((full_connection_path "parts_hera").length + 1) "A1" "A" = none ∧
    get_next_connection [c1_loop] 10 "down" "A1" "A" "e" = .step c1_loop ∧
    (full_connection_path "parts_hera").length = 8 := by
  refine ⟨by decide, by decide, by decide⟩

/-- C1 amended: the boundary rule holds for `cm_sysdef.next_connection`: when
the current part-type's position plus the direction arrow falls outside
`[0, path length)`, it returns `None` (no next connection, no exception).
The recursive walker in `cm_hookup` does not consult topology positions, so
its recursion depth is bounded only on cycle-free data, not by the epoch path
length. -/
theorem claim_C1_amended (ht : String) (opts : List Conn) (cur : Current)
    (A : PartDossier) (B : List PartDossier) (info : PortSpec) (arrow : Int)
    (h1 : part_def_lookup ht A.part_type = some info)
    (h2 : dir_arrow cur.direction = some arrow)
    (h3 : (info.position : Int) + arrow < 0 ∨
      (info.position : Int) + arrow > ((full_connection_path ht).length : Int) - 1) :
    next_connection ht opts cur A B = some none := by
  simp only [next_connection, h1, h2]
  rw [if_pos h3]

/-- C1 witness: walking up from a `parts_hera` station (position 0) the next
position is -1, and `next_connection` returns `None`. -/
theorem claim_C1_witness :
    next_connection "parts_hera" [] ⟨"up", "ground", "e"⟩ ⟨"ST1", "station"⟩ [] = some none :=
  claim_C1_amended "parts_hera" [] ⟨"up", "ground", "e"⟩ ⟨"ST1", "station"⟩ []
    ⟨[[none]], [[some "ground"]], 0⟩ (-1) rfl rfl (by decide)

/-- C5 counterexample: with raw connections `A1 -> B1 -> C1` where `A1` and
`C1` are stations and `B1` an antenna, the walker resolves the downstream
chain `[A1->B1, B1->C1]`; its part-type sequence `station, antenna, station`
repeats a part-type, and the second accepted connection goes from the antenna
(position 1) back to a station (position 0) instead of position 2. -/
theorem claim_C5_counterexample :
    follow_hookup_stream [c5_ab, c5_bc] 10 "A1" "A" "e" 10 = some [c5_ab, c5_bc] ∧
    ¬(chain_part_types c5_pt [c5_ab, c5_bc]).Nodup ∧
    chain_part_types c5_pt [c5_ab, c5_bc] = ["station", "antenna", "station"] ∧
    (part_def_lookup "parts_hera" (c5_pt c5_bc.upstream_part)).map PortSpec.position
      = some 1 ∧
    (part_def_lookup "parts_hera" (c5_pt c5_bc.downstream_part)).map PortSpec.position
      = some 0 := by
  refine ⟨by decide, by decide, by decide, by decide, by decide⟩

/-- C5 amended: every connection accepted by `cm_sysdef.next_connection` from
a part-type at position `p` leads to a far part whose declared part-type is
the one at position `p + 1` (downstream) or `p - 1` (upstream) of the epoch
path.  The walker in `cm_hookup` does not apply this check, and its resolved
chains can repeat a part-type. -/
theorem claim_C5_amended (ht : String) (opts : List Conn) (cur : Current)
    (A : PartDossier) (B : List PartDossier) (info : PortSpec) (arrow : Int) (c : Conn)
    (h1 : part_def_lookup ht A.part_type = some info)
    (h2 : dir_arrow cur.direction = some arrow)
    (hres : next_connection ht opts cur A B = some (some c)) :
    ∃ p ∈ opts.zip B, p.1 = c ∧
      some p.2.part_type =
        (full_connection_path ht).get? ((info.position : Int) + arrow).toNat := by
  simp only [next_connection, h1, h2] at hres
  by_cases hb : (info.position : Int) + arrow < 0 ∨
      (info.position : Int) + arrow > ((full_connection_path ht).length : Int) - 1
  · rw [if_pos hb] at hres
    injection hres with hres
    cases hres
  · rw [if_neg hb] at hres
    rcases hget : (full_connection_path ht).get? ((info.position : Int) + arrow).toNat
        with _ | npt
    · rw [hget] at hres
      cases hres
    · rw [hget] at hres
      dsimp only at hres
      rcases hlook : part_def_lookup ht npt with _ | ninfo
      · rw [hlook] at hres
        cases hres
      · rw [hlook] at hres
        dsimp only at hres
        rcases hall : allowed_next_ports ht ninfo cur.direction cur.pol with _ | g
        · rw [hall] at hres
          cases hres
        · rw [hall] at hres
          dsimp only at hres
          rcases hbo : build_options ht npt cur.direction (pfx_this ht A) opts.length
              (this_side_groups cur.direction ninfo).length (opts.zip B) with c' | os
          · rw [hbo] at hres
            dsimp only at hres
            injection hres with hres
            injection hres with hres
            subst hres
            obtain ⟨p, hp, hpc, hpt⟩ := build_options_inl ht npt cur.direction
              (pfx_this ht A) opts.length (this_side_groups cur.direction ninfo).length
              c' (opts.zip B) hbo
            exact ⟨p, hp, hpc, by rw [hpt]⟩
          · rw [hbo] at hres
            dsimp only at hres
            rcases hf : first_pass cur.port g os with _ | o
            · rw [hf] at hres
              dsimp only at hres
              rcases hs : second_pass cur.pol g os with _ | o
              · rw [hs] at hres
                injection hres with hres
                cases hres
              · rw [hs] at hres
                dsimp only at hres
                injection hres with hres
                injection hres with hres
                have hmem : o ∈ os := List.mem_of_find?_eq_some hs
                obtain ⟨p, hp, hpc, hpt⟩ := build_options_inr_mem ht npt cur.direction
                  (pfx_this ht A) opts.length (this_side_groups cur.direction ninfo).length
                  o (opts.zip B) os hbo hmem
                refine ⟨p, hp, ?_, by rw [hpt]⟩
                rw [hpc, hres]
            · rw [hf] at hres
              dsimp only at hres
              injection hres with hres
              injection hres with hres
              have hmem : o ∈ os := List.mem_of_find?_eq_some hf
              obtain ⟨p, hp, hpc, hpt⟩ := build_options_inr_mem ht npt cur.direction
                (pfx_this ht A) opts.length (this_side_groups cur.direction ninfo).length
                o (opts.zip B) os hbo hmem
              refine ⟨p, hp, ?_, by rw [hpt]⟩
              rw [hpc, hres]

/-- C5 witness: the sole station-to-antenna candidate is accepted by
`next_connection` going downstream from position 0, and the far part's
declared type is the path entry at position 1. -/
theorem claim_C5_witness :
    ∃ p ∈ [c5w_conn].zip [(⟨"AN1", "antenna"⟩ : PartDossier)], p.1 = c5w_conn ∧
      some p.2.part_type =
        (full_connection_path "parts_hera").get?
          ((((⟨[[none]], [[some "ground"]], 0⟩ : PortSpec).position : Int) + 1).toNat) :=
  claim_C5_amended "parts_hera" [c5w_conn] ⟨"down", "ground", "e"⟩ ⟨"ST1", "station"⟩
    [⟨"AN1", "antenna"⟩] ⟨[[none]], [[some "ground"]], 0⟩ 1 c5w_conn rfl rfl rfl

/-- C2 counterexample: stepping down from the antenna `AN1` (current port
`focus`, polarization `e`) with two feed candidates whose far-side ports
(`bogus`, `junk`) are not in the feed's allowed port group (`input`) and whose
this-side port `focus` does not start with the polarization character:
neither tie-break pass holds for any candidate, so the claim requires no next
connection; but the feed's this-side port specification has a single group,
so `next_connection` returns the first type-matching candidate without any
port test. -/
theorem claim_C2_counterexample :
    next_connection "parts_hera" [c2_conn1, c2_conn2] ⟨"down", "focus", "e"⟩
      ⟨"AN1", "antenna"⟩ [⟨"FD1", "feed"⟩, ⟨"FD2", "feed"⟩] = some (some c2_conn1) ∧
    [c2_conn1, c2_conn2].length ≠ 1 ∧
    this_side_groups "down" ⟨[[some "input"]], [[some "terminals"]], 2⟩ = [[some "input"]] ∧
    c2_conn1.downstream_input_port ≠ "input" ∧
    c2_conn2.downstream_input_port ≠ "input" ∧
    str_front "e" ≠ str_front c2_conn1.upstream_output_port ∧
    str_front "e" ≠ str_front c2_conn2.upstream_output_port := by
  refine ⟨by decide, by decide, by decide, by decide, by decide, by decide, by decide⟩

/-- C2 amended: the two tie-break passes run as the claim states them only
when the next part-type's this-side port specification has two polarization
groups (and more than one candidate remains); the candidates they see are
those whose far part has the expected next part-type and whose far-side port
does not start with `'@'`, in evaluation order.  The first pass returns the
first such candidate whose this-side port equals the current port and whose
far-side port is in the allowed group; otherwise the second pass returns the
first whose this-side port starts with the polarization character and whose
far-side port is allowed; otherwise there is no next connection (`None`, no
exception).  When the this-side specification has a single group, the first
type-matching candidate is returned with no port test at all. -/
theorem claim_C2_amended (ht : String) (opts : List Conn) (cur : Current)
    (A : PartDossier) (B : List PartDossier) (info ninfo : PortSpec) (arrow : Int)
    (npt : String) (g : List (Option String))
    (h1 : part_def_lookup ht A.part_type = some info)
    (h2 : dir_arrow cur.direction = some arrow)
    (h3 : ¬((info.position : Int) + arrow < 0 ∨
      (info.position : Int) + arrow > ((full_connection_path ht).length : Int) - 1))
    (h4 : (full_connection_path ht).get? ((info.position : Int) + arrow).toNat = some npt)
    (h5 : part_def_lookup ht npt = some ninfo)
    (h6 : allowed_next_ports ht ninfo cur.direction cur.pol = some g)
    (h7 : opts.length ≠ 1)
    (h8 : (this_side_groups cur.direction ninfo).length = 2) :
    next_connection ht opts cur A B =
      some (tie_break cur.port cur.pol g
        (option_entries ht npt cur.direction (pfx_this ht A) (opts.zip B))) := by
  have hgc : (this_side_groups cur.direction ninfo).length ≠ 1 := by omega
  simp only [next_connection, h1, h2]
  rw [if_neg h3, h4]
  dsimp only
  rw [h5]
  dsimp only
  rw [h6]
  dsimp only
  rw [build_options_no_early ht npt cur.direction (pfx_this ht A) opts.length
    (this_side_groups cur.direction ninfo).length h7 hgc (opts.zip B)]
  dsimp only
  rw [tie_break, option_entries]
  rcases hf : first_pass cur.port g ((opts.zip B).filterMap
      (mk_opt_entry ht npt cur.direction (pfx_this ht A))) with _ | o
  · rcases hs : second_pass cur.pol g ((opts.zip B).filterMap
        (mk_opt_entry ht npt cur.direction (pfx_this ht A))) with _ | o2
    · rfl
    · rfl
  · rfl

/-- C2 witness: stepping down from a front-end with two cable-rfof candidates
(ports `e -> ea` and `n -> na`), polarization `e` and current port `e`: the
first pass picks the `e -> ea` candidate (allowed group `[ea]`). -/
theorem claim_C2_witness :
    next_connection "parts_hera" [c2w_c1, c2w_c2] ⟨"down", "e", "e"⟩ ⟨"FE1", "front-end"⟩
      [⟨"CBL1", "cable-rfof"⟩, ⟨"CBL2", "cable-rfof"⟩] = some (some c2w_c1) :=
  claim_C2_amended "parts_hera" [c2w_c1, c2w_c2] ⟨"down", "e", "e"⟩ ⟨"FE1", "front-end"⟩
    [⟨"CBL1", "cable-rfof"⟩, ⟨"CBL2", "cable-rfof"⟩]
    ⟨[[some "input"]], [[some "e"], [some "n"]], 3⟩
    ⟨[[some "ea"], [some "na"]], [[some "eb"], [some "nb"]], 4⟩ 1 "cable-rfof"
    [some "ea"] rfl rfl (by decide) rfl rfl rfl (by decide) rfl

/-- C4 counterexample: the sole candidate from the `parts_paper` post-amp
leads to the single-pol-labeled part `RO1N`, whose polarization letter `n`
differs from the queried polarization `e`; the claim requires the candidate
to be rejected (a single-pol part's polarization must match), but
`next_connection` returns it: a sole type-matching candidate is accepted with
no port or polarization check. -/
theorem claim_C4_counterexample :
    next_connection "parts_paper" [c4_conn] ⟨"down", "eb", "e"⟩ ⟨"PA7", "post-amp"⟩
      [⟨"RO1N", "cable-post-amp(out)"⟩] = some (some c4_conn) ∧
    (single_pol_labeled_parts "parts_paper").contains "cable-post-amp(out)" = true ∧
    str_lower (str_take_right "RO1N" 1) ≠ "e" := by
  refine ⟨by decide, by decide, by decide⟩

/-- C4 amended: when exactly one candidate remains, `cm_sysdef.next_connection`
accepts it provided its far part has the expected next part-type, with no
port or polarization compatibility check; in the `cm_hookup` walker the sole
candidate is rejected only when the next part's name starts with `PAM` and
the candidate port's leading character differs from the polarization. -/
theorem claim_C4_amended (ht : String) (cur : Current) (A : PartDossier)
    (info ninfo : PortSpec) (arrow : Int) (npt : String) (g : List (Option String))
    (c : Conn) (b : PartDossier)
    (h1 : part_def_lookup ht A.part_type = some info)
    (h2 : dir_arrow cur.direction = some arrow)
    (h3 : ¬((info.position : Int) + arrow < 0 ∨
      (info.position : Int) + arrow > ((full_connection_path ht).length : Int) - 1))
    (h4 : (full_connection_path ht).get? ((info.position : Int) + arrow).toNat = some npt)
    (h5 : part_def_lookup ht npt = some ninfo)
    (h6 : allowed_next_ports ht ninfo cur.direction cur.pol = some g)
    (h7 : b.part_type = npt) :
    next_connection ht [c] cur A [b] = some (some c) ∧
    (∀ np pp pol : String,
      check_next_port np pp pol 1 = some false ↔
        (str_upper (str_take np 3) = "PAM" ∧ str_lower (str_take pp 1) ≠ str_lower pol)) := by
  constructor
  · simp only [next_connection, h1, h2]
    rw [if_neg h3, h4]
    dsimp only
    rw [h5]
    dsimp only
    rw [h6]
    dsimp only
    have hb : build_options ht npt cur.direction (pfx_this ht A) [c].length
        (this_side_groups cur.direction ninfo).length ([c].zip [b]) = Sum.inl c := by
      rw [show [c].zip [b] = [(c, b)] from rfl, build_options,
        if_neg (not_not_intro h7),
        if_pos (show [c].length = 1 ∨ (this_side_groups cur.direction ninfo).length = 1 from
          Or.inl rfl)]
    rw [hb]
  · intro np pp pol
    rw [check_next_port, if_pos rfl]
    by_cases hp : str_upper (str_take np 3) = "PAM" ∧ str_lower (str_take pp 1) ≠ str_lower pol
    · rw [if_pos hp]
      simp [hp]
    · rw [if_neg hp]
      simp [hp]

/-- C4 witness: stepping down from an antenna with a sole feed candidate
whose ports (`zzz`, `qqq`) match nothing in the topology, the candidate is
accepted anyway; and the walker's sole-candidate rule is exactly the `PAM`
polarization-letter check. -/
theorem claim_C4_witness :
    next_connection "parts_hera" [c4w_conn] ⟨"down", "weird", "e"⟩ ⟨"AN9", "antenna"⟩
      [⟨"FD9", "feed"⟩] = some (some c4w_conn) ∧
    (∀ np pp pol : String,
      check_next_port np pp pol 1 = some false ↔
        (str_upper (str_take np 3) = "PAM" ∧ str_lower (str_take pp 1) ≠ str_lower pol)) :=
  claim_C4_amended "parts_hera" ⟨"down", "weird", "e"⟩ ⟨"AN9", "antenna"⟩
    ⟨[[some "ground"]], [[some "focus"]], 1⟩ ⟨[[some "input"]], [[some "terminals"]], 2⟩ 1
    "feed" [] c4w_conn ⟨"FD9", "feed"⟩ rfl rfl (by decide) rfl rfl rfl rfl

end HeraMC
